import Mathlib

/-!
Verification of the typescript_querybuilder core: the `FilterBuilder`
boolean-expression tree and its serializer (`Filter.ts`), the nested
select serializer (`Query.buildSelect`), and the sort-directive formatter
(`Query.formatSort`, of which the repository holds two versions).

Each definition below is a shallow embedding of the corresponding
TypeScript declaration; doc comments name the source symbol.
-/

set_option maxRecDepth 4000

/-- Embeds `type AndOr = 'and' | 'or'` from Filter.ts. -/
inductive AndOr where
  | and
  | or
deriving DecidableEq, Repr

/-- Textual form of an `AndOr`, as the string union member itself. -/
def AndOr.str : AndOr → String
  | .and => "and"
  | .or => "or"

/-- Embeds `type Operator = 'eq' | 'neq' | 'gte' | 'gt' | 'lte' | 'lt' |
'search' | 'ilike' | 'like' | 'contains' | 'in'` from Filter.ts. -/
inductive Operator where
  | eq
  | neq
  | gte
  | gt
  | lte
  | lt
  | search
  | ilike
  | like
  | contains
  | in'
deriving DecidableEq, Repr

/-- Textual form of an `Operator`, as the string union member itself. -/
def Operator.str : Operator → String
  | .eq => "eq"
  | .neq => "neq"
  | .gte => "gte"
  | .gt => "gt"
  | .lte => "lte"
  | .lt => "lt"
  | .search => "search"
  | .ilike => "ilike"
  | .like => "like"
  | .contains => "contains"
  | .in' => "in"

/-- Embeds `type Value = string | string[] | number | number[] | boolean`
from Filter.ts (numbers modelled as integers, which covers every numeric
literal appearing in the repository and its spec). -/
inductive Value where
  | str (s : String)
  | num (n : Int)
  | bool (b : Bool)
  | strL (l : List String)
  | numL (l : List Int)
deriving DecidableEq, Repr

/-- Embeds `interface Expression` from Filter.ts. -/
structure Expression where
  key : String
  operator : Operator
  value : Value
deriving DecidableEq, Repr

/-- First pass of `escape` from Filter.ts:
`.replace(/[\\"]/g, '\\$&')` — each backslash or double quote gets a
backslash prefixed. -/
def escPass1 : List Char → List Char
  | [] => []
  | c :: cs =>
      (if c = '\\' ∨ c = '"' then ['\\', c] else [c]) ++ escPass1 cs

/-- Second pass of `escape` from Filter.ts:
`.replace(/\u0000/g, '\\0')` — each NUL byte becomes backslash-zero. -/
def escPass2 : List Char → List Char
  | [] => []
  | c :: cs =>
      (if c = Char.ofNat 0 then ['\\', '0'] else [c]) ++ escPass2 cs

/-- Embeds `function escape(str)` from Filter.ts: the two sequential
global replaces applied to the string's characters. -/
def escape (s : String) : String :=
  String.mk (escPass2 (escPass1 s.data))

/-- The value-formatting step of `FilterBuilder.buildExpression`:
an array joins its elements with commas inside parentheses (no
per-element quoting or escaping); a string scalar is double-quoted after
`escape`; numbers and booleans use their natural textual form. -/
def valueStr : Value → String
  | .strL l => "(" ++ String.intercalate "," l ++ ")"
  | .numL l => "(" ++ String.intercalate "," (l.map toString) ++ ")"
  | .str s => "\"" ++ escape s ++ "\""
  | .num n => toString n
  | .bool b => if b then "true" else "false"

/-- Embeds `FilterBuilder.buildExpression` from Filter.ts:
the leaf form `key.operator.value`. -/
def buildExpression (e : Expression) : String :=
  e.key ++ "." ++ e.operator.str ++ "." ++ valueStr e.value

mutual

/-- Embeds the state of a `FilterBuilder` from Filter.ts: the `and_or`
field and the `expressions` array. -/
inductive FilterBuilder where
  | mk (and_or : AndOr) (expressions : List Child)

/-- One entry of the `expressions` array: `Expression | FilterBuilder`. -/
inductive Child where
  | expr (e : Expression)
  | sub (b : FilterBuilder)

end

/-- The `and_or` field of a `FilterBuilder`. -/
def FilterBuilder.and_or : FilterBuilder → AndOr
  | .mk ao _ => ao

/-- The `expressions` field of a `FilterBuilder`. -/
def FilterBuilder.expressions : FilterBuilder → List Child
  | .mk _ es => es

/-- Embeds `new FilterBuilder()` (the constructor with `and_or`
undefined, defaulting to `'and'`, and an empty expressions array). -/
def FilterBuilder.new : FilterBuilder :=
  .mk .and []

mutual

/-- Embeds `FilterBuilder.build` from Filter.ts: an empty group yields
the empty string; otherwise the combinator wrapping the comma-joined
serialized children. -/
def FilterBuilder.build : FilterBuilder → String
  | .mk ao es =>
      if es.length = 0 then ""
      else ao.str ++ "(" ++ String.intercalate "," (Child.buildList es) ++ ")"

/-- The `expressions.map(...)` step inside `build`: serializes each
entry in order. -/
def Child.buildList : List Child → List String
  | [] => []
  | c :: cs => Child.build1 c :: Child.buildList cs

/-- One mapped entry inside `build`: a nested builder recurses via
`build`, a leaf goes through `buildExpression`. -/
def Child.build1 : Child → String
  | .expr e => buildExpression e
  | .sub b => FilterBuilder.build b

end

/-- Embeds `FilterBuilder.addExpression` from Filter.ts: pushes a leaf
onto the current group's expressions array and returns the builder. -/
def FilterBuilder.addExpression (b : FilterBuilder) (key : String)
    (op : Operator) (v : Value) : FilterBuilder :=
  match b with
  | .mk ao es => .mk ao (es ++ [Child.expr ⟨key, op, v⟩])

/-- Embeds `FilterBuilder.addBooleanExpr` from Filter.ts. A callback is
modelled as the state transformation it performs on the builder it
receives (the source invokes the callback for its mutations and ignores
its return value). With zero children the current group's combinator is
overwritten and the callback runs on that same group; otherwise the
callback runs on a fresh group with the requested combinator, which is
then pushed as a child. -/
def FilterBuilder.addBooleanExpr (b : FilterBuilder) (t : AndOr)
    (cb : FilterBuilder → FilterBuilder) : FilterBuilder :=
  match b with
  | .mk ao es =>
      if es.length = 0 then
        cb (.mk t es)
      else
        .mk ao (es ++ [Child.sub (cb (.mk t []))])

/-- Embeds `FilterBuilder.or`. -/
def FilterBuilder.or (b : FilterBuilder)
    (cb : FilterBuilder → FilterBuilder) : FilterBuilder :=
  b.addBooleanExpr .or cb

/-- Embeds `FilterBuilder.and`. -/
def FilterBuilder.and (b : FilterBuilder)
    (cb : FilterBuilder → FilterBuilder) : FilterBuilder :=
  b.addBooleanExpr .and cb

/-- The scalar union `string | number | boolean` accepted by `where`
and `whereNot`. -/
inductive Scalar where
  | str (s : String)
  | num (n : Int)
  | bool (b : Bool)
deriving DecidableEq, Repr

/-- Injection of the scalar union into `Value`. -/
def Scalar.toValue : Scalar → Value
  | .str s => .str s
  | .num n => .num n
  | .bool b => .bool b

/-- The sequence union `string[] | number[]` accepted by `whereIn`. -/
inductive Elems where
  | strs (l : List String)
  | nums (l : List Int)
deriving DecidableEq, Repr

/-- Injection of the sequence union into `Value`. -/
def Elems.toValue : Elems → Value
  | .strs l => .strL l
  | .nums l => .numL l

/-- Embeds `FilterBuilder.where`: sugar for `addExpression` with `eq`. -/
def FilterBuilder.«where» (b : FilterBuilder) (key : String)
    (v : Scalar) : FilterBuilder :=
  b.addExpression key .eq v.toValue

/-- Embeds `FilterBuilder.whereNot`: sugar with `neq`. -/
def FilterBuilder.whereNot (b : FilterBuilder) (key : String)
    (v : Scalar) : FilterBuilder :=
  b.addExpression key .neq v.toValue

/-- Embeds `FilterBuilder.whereGte`: sugar with `gte` on a number. -/
def FilterBuilder.whereGte (b : FilterBuilder) (key : String)
    (v : Int) : FilterBuilder :=
  b.addExpression key .gte (.num v)

/-- Embeds `FilterBuilder.whereGt`: sugar with `gt` on a number. -/
def FilterBuilder.whereGt (b : FilterBuilder) (key : String)
    (v : Int) : FilterBuilder :=
  b.addExpression key .gt (.num v)

/-- Embeds `FilterBuilder.whereLte`: sugar with `lte` on a number. -/
def FilterBuilder.whereLte (b : FilterBuilder) (key : String)
    (v : Int) : FilterBuilder :=
  b.addExpression key .lte (.num v)

/-- Embeds `FilterBuilder.whereLt`: sugar with `lt` on a number. -/
def FilterBuilder.whereLt (b : FilterBuilder) (key : String)
    (v : Int) : FilterBuilder :=
  b.addExpression key .lt (.num v)

/-- Embeds `FilterBuilder.whereLike`: sugar with `like` on a string. -/
def FilterBuilder.whereLike (b : FilterBuilder) (key : String)
    (v : String) : FilterBuilder :=
  b.addExpression key .like (.str v)

/-- Embeds `FilterBuilder.whereILike`: sugar with `ilike` on a string. -/
def FilterBuilder.whereILike (b : FilterBuilder) (key : String)
    (v : String) : FilterBuilder :=
  b.addExpression key .ilike (.str v)

/-- Embeds `FilterBuilder.whereSearch`: sugar with `search`. -/
def FilterBuilder.whereSearch (b : FilterBuilder) (key : String)
    (v : String) : FilterBuilder :=
  b.addExpression key .search (.str v)

/-- Embeds `FilterBuilder.whereIn`: sugar with `in` on a sequence. -/
def FilterBuilder.whereIn (b : FilterBuilder) (key : String)
    (vs : Elems) : FilterBuilder :=
  b.addExpression key .in' vs.toValue

example : FilterBuilder.build FilterBuilder.new = "" := by rfl

example :
    FilterBuilder.build (FilterBuilder.new.«where» "a" (.num 1)) =
      "and(a.eq.1)" := by rfl

/-- Embeds `type SimplifiedSelect = string | [string, SimplifiedSelect[]]`
from Query.ts (the runtime shape of the `Select<T>` type): a bare field
name, or a relation name with nested children. -/
inductive SelectNode where
  | str (s : String)
  | rel (name : String) (children : List SelectNode)

mutual

/-- One mapped entry inside `Query.buildSelect`: a string maps to
itself, a pair to `name(...)` around the recursive comma-join of its
children (the body of `buildSelect` inlined to keep the recursion
structural). -/
def Query.selectEntry : SelectNode → String
  | .str s => s
  | .rel name children =>
      name ++ "(" ++ String.intercalate "," (Query.mapSelect children) ++ ")"

/-- The `fields.map(...)` step inside `Query.buildSelect`. -/
def Query.mapSelect : List SelectNode → List String
  | [] => []
  | n :: ns => Query.selectEntry n :: Query.mapSelect ns

end

/-- Embeds `Query.buildSelect` from Query.ts: maps each entry via
`selectEntry` and joins the results with commas. -/
def Query.buildSelect (fields : List SelectNode) : String :=
  String.intercalate "," (Query.mapSelect fields)

/-- Embeds `type SortOrder = "asc" | "desc"` from Query.ts. -/
inductive SortOrder where
  | asc
  | desc
deriving DecidableEq, Repr

/-- Embeds `interface Sort` from Query.ts (written with guillemets
because `Sort` is a Lean keyword). -/
structure «Sort» where
  key : String
  order : SortOrder
deriving DecidableEq, Repr

/-- Embeds `Query.formatSort` from the Query.ts version that imports
`FilterBuilder` (src/unnamed/part_002): returns the sort list mapped to
the key, prefixed with `!` when descending. -/
def Query.formatSort (sorts : List «Sort») : List String :=
  sorts.map fun s =>
    match s.order with
    | .asc => s.key
    | .desc => "!" ++ s.key

/-- Embeds `Query.formatSort` from src/src/Query.ts. That version
evaluates `sorts.map(...)` but has no `return` statement, so the call
evaluates to `undefined` (modelled as `none`); the mapped array is
discarded. -/
def QueryV1.formatSort (sorts : List «Sort») : Option (List String) :=
  let _ :=
    sorts.map fun s =>
      match s.order with
      | .asc => s.key
      | .desc => "!" ++ s.key
  none

example :
    Query.buildSelect
        [SelectNode.str "*",
         SelectNode.rel "posts"
           [SelectNode.str "*", SelectNode.rel "comments" [SelectNode.str "body"]]] =
      "*,posts(*,comments(body))" := by rfl

/-- The escaping rule exactly as the specification words it, as a single
per-character map: a backslash or double quote is prefixed with a
backslash, a NUL byte becomes the two characters backslash-zero, and
every other character stands unchanged. -/
def escapeSpecChar (c : Char) : List Char :=
  if c = '\\' ∨ c = '"' then ['\\', c]
  else if c = Char.ofNat 0 then ['\\', '0']
  else [c]

/-- Single-pass escaping following the specification's wording, to be
compared with the source's two-pass `escape`. -/
def escapeSpec (s : String) : String :=
  String.mk (s.data.flatMap escapeSpecChar)

/-- State-passing form of `build`. The TypeScript method assigns to
neither `this.and_or` nor `this.expressions`, so the receiver after the
call is exactly the receiver before it; this wrapper records the call's
full observable effect (result string, receiver state afterwards). -/
def buildPair (b : FilterBuilder) : String × FilterBuilder :=
  (b.build, b)

lemma intercalate_go_acc (s : String) :
    ∀ (as : List String) (p q : String),
      String.intercalate.go (p ++ q) s as = p ++ String.intercalate.go q s as := by
  intro as
  induction as with
  | nil => intro p q; rfl
  | cons a as ih =>
      intro p q
      show String.intercalate.go (p ++ q ++ s ++ a) s as = _
      rw [String.append_assoc p q s, String.append_assoc p (q ++ s) a, ih]
      rfl

lemma intercalate_go_split (s y : String) (ys : List String) :
    ∀ (xs : List String) (acc : String),
      String.intercalate.go acc s (xs ++ y :: ys) =
        String.intercalate.go acc s xs ++ s ++ String.intercalate.go y s ys := by
  intro xs
  induction xs with
  | nil =>
      intro acc
      show String.intercalate.go (acc ++ s ++ y) s ys = _
      rw [intercalate_go_acc s ys (acc ++ s) y]
      rfl
  | cons a as ih =>
      intro acc
      show String.intercalate.go (acc ++ s ++ a) s (as ++ y :: ys) = _
      rw [ih]
      rfl

lemma intercalate_append_of_ne_nil (s : String) (xs ys : List String)
    (hx : xs ≠ []) (hy : ys ≠ []) :
    String.intercalate s (xs ++ ys) =
      String.intercalate s xs ++ s ++ String.intercalate s ys := by
  cases xs with
  | nil => exact absurd rfl hx
  | cons x xs =>
      cases ys with
      | nil => exact absurd rfl hy
      | cons y ys =>
          show String.intercalate.go x s (xs ++ y :: ys) = _
          rw [intercalate_go_split]
          rfl

lemma buildList_append (xs ys : List Child) :
    Child.buildList (xs ++ ys) = Child.buildList xs ++ Child.buildList ys := by
  induction xs with
  | nil => rfl
  | cons c cs ih => simp [Child.buildList, ih]

lemma buildList_ne_nil (xs : List Child) (h : xs ≠ []) :
    Child.buildList xs ≠ [] := by
  cases xs with
  | nil => exact absurd rfl h
  | cons c cs => simp [Child.buildList]

lemma mapSelect_append (xs ys : List SelectNode) :
    Query.mapSelect (xs ++ ys) = Query.mapSelect xs ++ Query.mapSelect ys := by
  induction xs with
  | nil => rfl
  | cons n ns ih => simp [Query.mapSelect, ih]

lemma mapSelect_ne_nil (xs : List SelectNode) (h : xs ≠ []) :
    Query.mapSelect xs ≠ [] := by
  cases xs with
  | nil => exact absurd rfl h
  | cons n ns => simp [Query.mapSelect]

lemma FilterBuilder.eta (b : FilterBuilder) :
    b = .mk b.and_or b.expressions := by
  cases b with
  | mk ao es => rfl

lemma build_mk_nil (ao : AndOr) : FilterBuilder.build (.mk ao []) = "" := rfl

lemma build_of_expressions_nil (b : FilterBuilder) (h : b.expressions = []) :
    b.build = "" := by
  cases b with
  | mk ao es =>
      simp only [FilterBuilder.expressions] at h
      subst h
      rfl

lemma build_mk_ne_nil (ao : AndOr) (es : List Child) (h : es ≠ []) :
    FilterBuilder.build (.mk ao es) =
      ao.str ++ "(" ++ String.intercalate "," (Child.buildList es) ++ ")" := by
  rw [FilterBuilder.build]
  simp [List.length_eq_zero, h]

lemma addBooleanExpr_of_nil (b : FilterBuilder) (t : AndOr)
    (cb : FilterBuilder → FilterBuilder) (h : b.expressions = []) :
    b.addBooleanExpr t cb = cb (.mk t []) := by
  cases b with
  | mk ao es =>
      simp only [FilterBuilder.expressions] at h
      subst h
      rfl

lemma addBooleanExpr_of_ne_nil (b : FilterBuilder) (t : AndOr)
    (cb : FilterBuilder → FilterBuilder) (h : b.expressions ≠ []) :
    b.addBooleanExpr t cb =
      .mk b.and_or (b.expressions ++ [Child.sub (cb (.mk t []))]) := by
  cases b with
  | mk ao es =>
      simp only [FilterBuilder.expressions, FilterBuilder.and_or] at h ⊢
      rw [FilterBuilder.addBooleanExpr]
      simp [List.length_eq_zero, h]

lemma escPass2_append (xs ys : List Char) :
    escPass2 (xs ++ ys) = escPass2 xs ++ escPass2 ys := by
  induction xs with
  | nil => rfl
  | cons c cs ih => simp [escPass2, ih]

lemma escPass2_pass1_char (c : Char) :
    escPass2 (if c = '\\' ∨ c = '"' then ['\\', c] else [c]) =
      escapeSpecChar c := by
  by_cases h1 : c = '\\' ∨ c = '"'
  · rcases h1 with h | h <;> subst h <;> rfl
  · simp only [h1, if_false, escapeSpecChar]
    by_cases h2 : c = Char.ofNat 0
    · subst h2; rfl
    · simp [escPass2, h2]

lemma escape_data_eq (cs : List Char) :
    escPass2 (escPass1 cs) = cs.flatMap escapeSpecChar := by
  induction cs with
  | nil => rfl
  | cons c cs ih =>
      show escPass2 ((if c = '\\' ∨ c = '"' then ['\\', c] else [c]) ++ escPass1 cs) = _
      rw [escPass2_append, escPass2_pass1_char, ih]
      rfl

lemma escape_eq_spec (s : String) : escape s = escapeSpec s := by
  show String.mk (escPass2 (escPass1 s.data)) = _
  rw [escape_data_eq]
  rfl

/-- The builder tree of the spec's nested-group example, as the calls
execute at runtime: `whereIn("id",[1,2,3])` then `.or(cb)` where `cb`
adds `where("active", true)` and then a `gte` comparison on
`"created_at"` against the string `"2019-01-01"` (the spec writes that
call as `whereGte`, whose declared parameter type is number; at runtime
the call forwards its argument unchanged to `addExpression`). -/
def nestedExampleTree : FilterBuilder :=
  (FilterBuilder.new.whereIn "id" (.nums [1, 2, 3])).or fun b =>
    (b.«where» "active" (.bool true)).addExpression "created_at" .gte
      (.str "2019-01-01")

/-- C1: on a builder whose current group has zero children, `or(cb)` and
`and(cb)` do not create a nested subtree: they overwrite the current
group's combinator to the requested one and run the callback against
that same group, so expressions added inside the callback become its
direct children; in particular `or(cb)` on a fresh builder whose
callback adds `where("x",1)` and `where("y",2)` builds to
`or(x.eq.1,y.eq.2)`. -/
theorem c1_empty_group_relabeled (b : FilterBuilder)
    (cb : FilterBuilder → FilterBuilder) (h : b.expressions = []) :
    (b.or cb = cb (.mk .or []) ∧ b.and cb = cb (.mk .and [])) ∧
      FilterBuilder.build
          (FilterBuilder.new.or fun x =>
            (x.«where» "x" (.num 1)).«where» "y" (.num 2)) =
        "or(x.eq.1,y.eq.2)" := by
  refine ⟨⟨?_, ?_⟩, by rfl⟩
  · exact addBooleanExpr_of_nil b .or cb h
  · exact addBooleanExpr_of_nil b .and cb h

/-- C1 witness: the theorem applied to a fresh builder and a concrete
callback. -/
theorem c1_empty_group_relabeled_witness :
    FilterBuilder.new.expressions = [] ∧
      FilterBuilder.new.or (fun x => x.«where» "k" (.num 7)) =
        (fun x => x.«where» "k" (.num 7)) (FilterBuilder.mk .or []) :=
  ⟨rfl,
    ((c1_empty_group_relabeled FilterBuilder.new
        (fun x => x.«where» "k" (.num 7)) rfl).1).1⟩

/-- C2 counterexample: the spec's example actually builds with the date
double-quoted (`created_at.gte."2019-01-01"`), because the date is a
string scalar and every string scalar is quoted; the claimed unquoted
output is not produced. -/
theorem c2_counterexample :
    FilterBuilder.build nestedExampleTree =
        "and(id.in.(1,2,3),or(active.eq.true,created_at.gte.\"2019-01-01\"))" ∧
      FilterBuilder.build nestedExampleTree ≠
        "and(id.in.(1,2,3),or(active.eq.true,created_at.gte.2019-01-01))" :=
  ⟨rfl, by decide⟩

/-- C2 (amended): a scoping call on a group that already has one or more
children creates a new group with the requested combinator, runs the
callback against it, and appends the finished subtree as a new child of
the current group; the spec's example builds to
`and(id.in.(1,2,3),or(active.eq.true,created_at.gte."2019-01-01"))`,
with the date double-quoted since it is a string scalar. -/
theorem c2_nonempty_appends_subtree (b : FilterBuilder) (t : AndOr)
    (cb : FilterBuilder → FilterBuilder) (h : b.expressions ≠ []) :
    b.addBooleanExpr t cb =
        .mk b.and_or (b.expressions ++ [Child.sub (cb (.mk t []))]) ∧
      b.or cb = .mk b.and_or (b.expressions ++ [Child.sub (cb (.mk .or []))]) ∧
      FilterBuilder.build nestedExampleTree =
        "and(id.in.(1,2,3),or(active.eq.true,created_at.gte.\"2019-01-01\"))" :=
  ⟨addBooleanExpr_of_ne_nil b t cb h, addBooleanExpr_of_ne_nil b .or cb h, rfl⟩

/-- C2 witness: the theorem applied to a one-child builder and the
identity callback. -/
theorem c2_nonempty_appends_subtree_witness :
    (FilterBuilder.new.«where» "a" (.num 1)).expressions ≠ [] ∧
      (FilterBuilder.new.«where» "a" (.num 1)).or (fun x => x) =
        FilterBuilder.mk .and
          [Child.expr ⟨"a", .eq, .num 1⟩, Child.sub (.mk .or [])] :=
  ⟨List.cons_ne_nil _ _,
    ((c2_nonempty_appends_subtree (FilterBuilder.new.«where» "a" (.num 1)) .or
        (fun x => x) (List.cons_ne_nil _ _)).2).1⟩

/-- C3: `escape` (two sequential global replaces) renders every string
exactly as the single per-character rule of the spec: backslash and
double-quote characters are backslash-prefixed and NUL bytes become the
two-character literal backslash-zero; a string scalar is double-quoted
around its escaped form, `where("name", 'John "Doe"')` yields the leaf
`name.eq."John \"Doe\""`, and numeric and boolean scalars render
unquoted in their natural textual form. -/
theorem c3_string_escaping :
    (∀ s : String, escape s = escapeSpec s) ∧
      (∀ s : String, valueStr (.str s) = "\"" ++ escapeSpec s ++ "\"") ∧
      buildExpression ⟨"name", .eq, .str "John \"Doe\""⟩ =
        "name.eq.\"John \\\"Doe\\\"\"" ∧
      escape (String.mk [Char.ofNat 0]) = String.mk ['\\', '0'] ∧
      (∀ n : Int, valueStr (.num n) = toString n) ∧
      (∀ b : Bool, valueStr (.bool b) = if b then "true" else "false") := by
  refine ⟨escape_eq_spec, ?_, by rfl, by rfl, fun n => rfl, fun b => rfl⟩
  intro s
  show "\"" ++ escape s ++ "\"" = _
  rw [escape_eq_spec]

/-- C4: a sequence-valued leaf renders its value as a parenthesized
comma-joined list of the elements with no per-element quoting and no
per-element escaping — even when an element contains a comma,
parenthesis, quote, or backslash, it appears verbatim. -/
theorem c4_sequence_elements_verbatim :
    (∀ (key : String) (l : List String),
        FilterBuilder.build (FilterBuilder.new.whereIn key (.strs l)) =
          "and(" ++ key ++ ".in.(" ++ String.intercalate "," l ++ "))") ∧
      (∀ (key : String) (l : List Int),
          FilterBuilder.build (FilterBuilder.new.whereIn key (.nums l)) =
            "and(" ++ key ++ ".in.(" ++
              String.intercalate "," (l.map toString) ++ "))") ∧
      FilterBuilder.build
          (FilterBuilder.new.whereIn "id"
            (.strs ["a,b", "(c)", "d\"e", "f\\g"])) =
        "and(id.in.(a,b,(c),d\"e,f\\g))" := by
  refine ⟨?_, ?_, by rfl⟩
  · intro key l
    show "and" ++ "(" ++
        (key ++ "." ++ "in" ++ "." ++
          ("(" ++ String.intercalate "," l ++ ")")) ++ ")" = _
    generalize String.intercalate "," l = I
    obtain ⟨ks⟩ := key
    obtain ⟨Is⟩ := I
    show String.mk _ = String.mk _
    simp [List.append_assoc]
  · intro key l
    show "and" ++ "(" ++
        (key ++ "." ++ "in" ++ "." ++
          ("(" ++ String.intercalate "," (l.map toString) ++ ")")) ++ ")" = _
    generalize String.intercalate "," (l.map toString) = I
    obtain ⟨ks⟩ := key
    obtain ⟨Is⟩ := I
    show String.mk _ = String.mk _
    simp [List.append_assoc]

/-- C5 counterexample: the root's combinator is not overwritten exactly
once by the first scoping call — after `or(cb)` with a callback adding
nothing, the root is still empty, so a later `and(cb)` call overwrites
the already-relabeled combinator a second time. -/
theorem c5_counterexample :
    (FilterBuilder.new.or (fun x => x)).and_or = AndOr.or ∧
      ((FilterBuilder.new.or (fun x => x)).and (fun x => x)).and_or =
        AndOr.and :=
  ⟨rfl, rfl⟩

/-- C5 (amended): a scoping call overwrites the receiving group's
combinator exactly when that group has zero children at the time of the
call — true of the root and of any sub-group, and possibly more than
once when callbacks add nothing; a scoping call on a group with at
least one child leaves its combinator and existing children unchanged,
and `addExpression` never changes a combinator. -/
theorem c5_combinator_overwrite_rule (b₁ b₂ : FilterBuilder) (t : AndOr)
    (cb : FilterBuilder → FilterBuilder) (key : String) (op : Operator)
    (v : Value) (h₁ : b₁.expressions = []) (h₂ : b₂.expressions ≠ []) :
    b₁.addBooleanExpr t cb = cb (.mk t []) ∧
      (b₂.addBooleanExpr t cb).and_or = b₂.and_or ∧
      (b₂.addBooleanExpr t cb).expressions =
        b₂.expressions ++ [Child.sub (cb (.mk t []))] ∧
      (∀ b₃ : FilterBuilder,
        (b₃.addExpression key op v).and_or = b₃.and_or) := by
  refine ⟨addBooleanExpr_of_nil b₁ t cb h₁, ?_, ?_, ?_⟩
  · rw [addBooleanExpr_of_ne_nil b₂ t cb h₂]
    rfl
  · rw [addBooleanExpr_of_ne_nil b₂ t cb h₂]
    rfl
  · intro b₃
    cases b₃ with
    | mk ao es => rfl

/-- C5 witness: the theorem applied to a fresh builder and a one-child
builder. -/
theorem c5_combinator_overwrite_rule_witness :
    FilterBuilder.new.expressions = [] ∧
      (FilterBuilder.new.«where» "a" (.num 1)).expressions ≠ [] ∧
      ((FilterBuilder.new.«where» "a" (.num 1)).addBooleanExpr .or
          (fun x => x)).and_or = AndOr.and :=
  ⟨rfl, List.cons_ne_nil _ _,
    ((c5_combinator_overwrite_rule FilterBuilder.new
        (FilterBuilder.new.«where» "a" (.num 1)) .or (fun x => x) "k" .eq
        (.num 0) rfl (List.cons_ne_nil _ _)).2).1⟩

/-- C6: a builder with no expressions builds to the empty string,
whatever the group's combinator — including after the combinator was
re-labeled by a scoping call whose callback added nothing. -/
theorem c6_empty_builds_empty (b : FilterBuilder) (h : b.expressions = []) :
    b.build = "" ∧
      FilterBuilder.build (FilterBuilder.new.or (fun x => x)) = "" ∧
      FilterBuilder.build (FilterBuilder.new.and (fun x => x)) = "" :=
  ⟨build_of_expressions_nil b h, rfl, rfl⟩

/-- C6 witness: the theorem applied to an empty group labeled `or`. -/
theorem c6_empty_builds_empty_witness :
    (FilterBuilder.mk .or []).expressions = [] ∧
      (FilterBuilder.mk .or []).build = "" :=
  ⟨rfl, (c6_empty_builds_empty (.mk .or []) rfl).1⟩

/-- C7: select serialization maps each node independently — a bare field
name to itself, a relation to its name around the parenthesized
serialization of its children — and joins top-level results with commas
in insertion order (appending entry lists appends their serializations,
so nothing is reordered or deduplicated); the spec's example serializes
to `*,posts(*,comments(body))`. -/
theorem c7_select_serialization (xs ys : List SelectNode)
    (hx : xs ≠ []) (hy : ys ≠ []) :
    Query.buildSelect (xs ++ ys) =
        Query.buildSelect xs ++ "," ++ Query.buildSelect ys ∧
      (∀ name : String, Query.buildSelect [SelectNode.str name] = name) ∧
      (∀ (name : String) (children : List SelectNode),
          Query.buildSelect [SelectNode.rel name children] =
            name ++ "(" ++ Query.buildSelect children ++ ")") ∧
      Query.buildSelect
          [SelectNode.str "*",
           SelectNode.rel "posts"
             [SelectNode.str "*",
              SelectNode.rel "comments" [SelectNode.str "body"]]] =
        "*,posts(*,comments(body))" := by
  refine ⟨?_, fun name => rfl, fun name children => rfl, by rfl⟩
  show String.intercalate "," (Query.mapSelect (xs ++ ys)) = _
  rw [mapSelect_append,
    intercalate_append_of_ne_nil "," _ _ (mapSelect_ne_nil xs hx)
      (mapSelect_ne_nil ys hy)]
  rfl

/-- C7 witness: the theorem applied to two concrete singleton entry
lists. -/
theorem c7_select_serialization_witness :
    ([SelectNode.str "a"] ≠ ([] : List SelectNode)) ∧
      Query.buildSelect [SelectNode.str "a", SelectNode.str "b"] =
        Query.buildSelect [SelectNode.str "a"] ++ "," ++
          Query.buildSelect [SelectNode.str "b"] :=
  ⟨List.cons_ne_nil _ _,
    (c7_select_serialization [SelectNode.str "a"] [SelectNode.str "b"]
        (List.cons_ne_nil _ _) (List.cons_ne_nil _ _)).1⟩

/-- C8: `build` is idempotent and non-mutating — the state-passing form
of the call returns the receiver unchanged, and a second call on that
returned receiver produces the identical string. -/
theorem c8_build_idempotent_pure (b : FilterBuilder) :
    (buildPair b).2 = b ∧
      (buildPair ((buildPair b).2)).1 = (buildPair b).1 ∧
      (buildPair b).1 = b.build :=
  ⟨rfl, rfl, rfl⟩

/-- C9: the `formatSort` of src/src/Query.ts maps the directives but
never returns the mapped array — the call evaluates to `undefined`
(`none`) for every input, so the parameter serializer is not handed the
`!`-prefixed key list the claim describes; the later Query.ts version
(src/unnamed/part_002) does return that list, key prefixed with `!`
exactly when descending, in order. -/
theorem c9_formatSort_versions :
    QueryV1.formatSort [⟨"a", .asc⟩, ⟨"b", .desc⟩] = none ∧
      Query.formatSort [⟨"a", .asc⟩, ⟨"b", .desc⟩] = ["a", "!b"] ∧
      (∀ sorts : List «Sort», QueryV1.formatSort sorts = none) ∧
      (∀ sorts : List «Sort»,
        (Query.formatSort sorts).length = sorts.length) := by
  refine ⟨rfl, rfl, fun _ => rfl, fun sorts => ?_⟩
  simp [Query.formatSort]

lemma build_appended_empty_sub (b : FilterBuilder) (t : AndOr)
    (cb : FilterBuilder → FilterBuilder) (h : b.expressions ≠ [])
    (hcb : (cb (.mk t [])).expressions = []) :
    FilterBuilder.build (b.addBooleanExpr t cb) =
      b.and_or.str ++ "(" ++
        String.intercalate "," (Child.buildList b.expressions) ++ ",)" := by
  rw [addBooleanExpr_of_ne_nil b t cb h, build_mk_ne_nil _ _ (by simp),
    buildList_append,
    show Child.buildList [Child.sub (cb (.mk t []))] =
      [FilterBuilder.build (cb (.mk t []))] from rfl,
    build_of_expressions_nil _ hcb,
    intercalate_append_of_ne_nil "," _ _ (buildList_ne_nil _ h) (by simp)]
  generalize String.intercalate "," (Child.buildList b.expressions) = X
  generalize AndOr.str b.and_or = A
  obtain ⟨as⟩ := A
  obtain ⟨xs⟩ := X
  show String.mk _ = String.mk _
  simp [List.append_assoc]

/-- C10: a scoping call `and(cb)` or `or(cb)` on a group that already
has a child, with a callback adding nothing, still appends the empty
subgroup, which contributes an empty element to the comma-joined output
— the built string carries a dangling comma, e.g. `where("a",1)` then
either `or(cb)` or `and(cb)` with an empty callback builds
`and(a.eq.1,)`. -/
theorem c10_empty_subgroup_dangling_comma (b : FilterBuilder)
    (cb : FilterBuilder → FilterBuilder) (h : b.expressions ≠ [])
    (hcb : ∀ t : AndOr, (cb (.mk t [])).expressions = []) :
    FilterBuilder.build (b.or cb) =
        b.and_or.str ++ "(" ++
          String.intercalate "," (Child.buildList b.expressions) ++ ",)" ∧
      FilterBuilder.build (b.and cb) =
        b.and_or.str ++ "(" ++
          String.intercalate "," (Child.buildList b.expressions) ++ ",)" ∧
      FilterBuilder.build
          ((FilterBuilder.new.«where» "a" (.num 1)).or (fun x => x)) =
        "and(a.eq.1,)" ∧
      FilterBuilder.build
          ((FilterBuilder.new.«where» "a" (.num 1)).and (fun x => x)) =
        "and(a.eq.1,)" :=
  ⟨build_appended_empty_sub b .or cb h (hcb .or),
    build_appended_empty_sub b .and cb h (hcb .and), rfl, rfl⟩

/-- C10 witness: the theorem applied to a one-child builder and the
identity callback, for both combinators. -/
theorem c10_empty_subgroup_dangling_comma_witness :
    (FilterBuilder.new.«where» "a" (.num 1)).expressions ≠ [] ∧
      ((fun x => x) (FilterBuilder.mk .or [])).expressions = [] ∧
      ((fun x => x) (FilterBuilder.mk .and [])).expressions = [] ∧
      FilterBuilder.build
          ((FilterBuilder.new.«where» "a" (.num 1)).or (fun x => x)) =
        "and(a.eq.1,)" ∧
      FilterBuilder.build
          ((FilterBuilder.new.«where» "a" (.num 1)).and (fun x => x)) =
        "and(a.eq.1,)" :=
  ⟨List.cons_ne_nil _ _, rfl, rfl,
    ((c10_empty_subgroup_dangling_comma (FilterBuilder.new.«where» "a" (.num 1))
        (fun x => x) (List.cons_ne_nil _ _) (fun _ => rfl)).2).2.1,
    ((c10_empty_subgroup_dangling_comma (FilterBuilder.new.«where» "a" (.num 1))
        (fun x => x) (List.cons_ne_nil _ _) (fun _ => rfl)).2).2.2⟩
